import Mathlib

/-!
# go2tv: device discovery, device selection and session start-up

A shallow embedding of `cmd/go2tv/go2tv.go`.

* The package-level map `devices` (`map[int][]string`) is passed explicitly: every
  function that touches it takes the map and returns it.
* A run-time panic (index out of range on a slice) is the result `none`.
* Go's `int` is embedded as `Int`: the only arithmetic is `counter++`, performed at most
  once per element of a slice held in memory, so it never reaches `2^63`.
* Calls that leave the file (`ssdp.Search`, `soapcalls`, `iptools`, `httphandlers`,
  `interactive`, `filepath`, `net/url`, `checkflags`) are parameters.
-/

namespace Go2tv

/-! ## Data model -/

/-- A Go `error` value, identified by the text it carries. -/
structure GoError where
  msg : String
deriving DecidableEq, Repr

/-- The fields of `ssdp.Service` read by discovery (`Type` is spelled `Type_`). -/
structure Service where
  Type_ : String
  Server : String
  Location : String
deriving DecidableEq, Repr

/-- The Go map `devices : map[int][]string` as an association list. A Go map holds one
value per key; the order of the list is not observable through the operations below when
every stored slice has two elements. -/
abbrev Registry := List (Int × List String)

/-- The service type string compared against in `loadSSDPservices`. -/
def avTransport : String := "urn:schemas-upnp-org:service:AVTransport:1"

/-- The error `errors.New("loadSSDPservices: No available Media Renderers")`. -/
def errNoRenderers : GoError := ⟨"loadSSDPservices: No available Media Renderers"⟩

/-- The error `errors.New("devicePicker: Requested device not available")`. -/
def errNotAvailable : GoError := ⟨"devicePicker: Requested device not available"⟩

/-- The error `errors.New("devicePicker: Something went terribly wrong")`. -/
def errTerriblyWrong : GoError := ⟨"devicePicker: Something went terribly wrong"⟩

/-! ## Go map operations -/

/-- The keys of the map, as `for k := range devices` visits them. -/
def keysOf (devices : Registry) : List Int := devices.map Prod.fst

/-- The stored slices of the map. -/
def valuesOf (devices : Registry) : List (List String) := devices.map Prod.snd

/-- The length `len(devices)`. -/
def len (devices : Registry) : Int := (devices.length : Int)

/-- The expression `devices[k]`: the stored slice, or the nil slice for an absent key. -/
def index : Registry → Int → List String
  | [], _ => []
  | (k', v) :: rest, k => if k' = k then v else index rest k

/-- The assignment `devices[k] = v`: replaces the value of an existing key, otherwise adds the key. -/
def assign : Registry → Int → List String → Registry
  | [], k, v => [(k, v)]
  | (k', v') :: rest, k, v => if k' = k then (k, v) :: rest else (k', v') :: assign rest k v

/-! ## `loadSSDPservices` -/

/-- The inner loop of `loadSSDPservices`,
`for _, z := range devices { if z[0] == curr[0] && z[1] == curr[1] { add = false; break } }`,
returning the final value of `add`. `z[0]` and, when the first comparison succeeds, `z[1]`
are slice reads and panic when out of range. -/
def scanDevices (curr : List String) : Registry → Option Bool
  | [] => some true
  | (_, z) :: rest =>
    match z[0]?, curr[0]? with
    | some z0, some c0 =>
      if z0 = c0 then
        match z[1]?, curr[1]? with
        | some z1, some c1 => if z1 = c1 then some false else scanDevices curr rest
        | _, _ => none
      else scanDevices curr rest
    | _, _ => none

/-- The loop `for _, srv := range list` of `loadSSDPservices`; the state is the map and
`counter`. -/
def searchLoop : List Service → Registry → Int → Option (Registry × Int)
  | [], devices, counter => some (devices, counter)
  | srv :: rest, devices, counter =>
    if srv.Type_ = avTransport then
      match scanDevices [srv.Server, srv.Location] devices with
      | none => none
      | some true =>
        searchLoop rest (assign devices (counter + 1) [srv.Server, srv.Location]) (counter + 1)
      | some false => searchLoop rest devices counter
    else searchLoop rest devices counter

/-- The function `loadSSDPservices`. `search` is what `ssdp.Search(ssdp.All, 1, "")` returned: the list
and the error. The result is the map after the call and the returned error (`none` is
`nil`). -/
def loadSSDPservices (search : List Service × Option GoError) (devices : Registry) :
    Option (Registry × Option GoError) :=
  match search.2 with
  | some err => some (devices, some err)
  | none =>
    match searchLoop search.1 devices 0 with
    | none => none
    | some (devices', counter) =>
      if counter > 0 then some (devices', none) else some (devices', some errNoRenderers)

/-! ## `devicePicker` -/

/-- The call `sort.Ints(keys)`. -/
def sortInts (keys : List Int) : List Int := keys.insertionSort (· ≤ ·)

/-- The loop `for _, k := range keys` of `devicePicker` together with the final
`return "", errors.New(...)`. -/
def pickLoop (devices : Registry) (i : Int) : List Int → Option (String × Option GoError)
  | [] => some ("", some errTerriblyWrong)
  | k :: ks =>
    if i = k then
      match (index devices k)[1]? with
      | some location => some (location, none)
      | none => none
    else pickLoop devices i ks

/-- The function `devicePicker(i)`: the map after the call, the returned string and the returned error. -/
def devicePicker (devices : Registry) (i : Int) :
    Option (Registry × String × Option GoError) :=
  if i > len devices ∨ len devices = 0 ∨ i ≤ 0 then
    some (devices, "", some errNotAvailable)
  else
    match pickLoop devices i (sortInts (keysOf devices)) with
    | some (location, err) => some (devices, location, err)
    | none => none

/-! ## `check` and `main`

`main` is sequential code: it is embedded as the list of events it performs, in program
order, for given results of the calls it makes. -/

/-- The struct `soapcalls.TVPayload`, with the fields `main` sets. -/
structure TVPayload where
  TransportURL : String
  ControlURL : String
  CallbackURL : String
  VideoURL : String
  SubtitlesURL : String
deriving DecidableEq, Repr

/-- The value behind `*interactive.NewScreen`. -/
structure Screen where
  handle : Nat
deriving DecidableEq, Repr

/-- The struct `httphandlers.HTTPPayload`. -/
structure HTTPPayload where
  Soapcalls : TVPayload
  Screen : Screen
deriving DecidableEq, Repr

/-- What `main` obtains from outside the file. `flag.Parse` has returned; `dmrURL` is the
value of the package variable when `main` reads it, after `checkflags`. -/
structure Env where
  /-- The flag value `*videoArg`. -/
  videoArg : String
  /-- The flag value `*subsArg`. -/
  subsArg : String
  /-- The result of `checkflags()`. -/
  checkflags : Bool × Option GoError
  /-- The package variable `dmrURL`. -/
  dmrURL : String
  /-- The function `filepath.Abs`. -/
  filepathAbs : String → String × Option GoError
  /-- The function `filepath.Base`. -/
  filepathBase : String → String
  /-- The string `(&url.URL{Path: p}).String()` for a path `p`. -/
  urlString : String → String
  /-- The function `soapcalls.DMRextractor`. -/
  DMRextractor : String → String × String × Option GoError
  /-- The function `iptools.URLtoListenIPandPort`. -/
  URLtoListenIPandPort : String → String × Option GoError
  /-- The result of `interactive.InitNewScreen()`. -/
  InitNewScreen : Screen × Option GoError
  /-- Whether a value is ever sent on the channel `serverStarted`. -/
  serverStartedSent : Bool
  /-- The method `tvdata.SendtoTV`. -/
  SendtoTV : TVPayload → String → Option GoError

/-- What `main` does, one event per statement with an effect outside `main`. A call is
recorded with its argument and the error it returned. Calls are taken to return; `os.Exit`
and a receive that never completes end the run. -/
inductive Event where
  | checkflags (exit : Bool) (err : Option GoError)
  | filepathAbs (path : String) (err : Option GoError)
  | DMRextractor (dmrURL : String) (err : Option GoError)
  | URLtoListenIPandPort (dmrURL : String) (err : Option GoError)
  | InitNewScreen (err : Option GoError)
  | NewServer (a : String)
  | goServeFiles (a absVideoFile absSubtitlesFile : String) (payload : HTTPPayload)
  | recvServerStarted
  | blockedOnServerStarted
  | SendtoTV (tvdata : TVPayload) (action : String) (err : Option GoError)
  | InterInit (tvdata : TVPayload)
  | stderr (text : String)
  | osExit (status : Int)
  | mainReturns
deriving DecidableEq, Repr

/-- The call `check(err)` followed by the rest of the program `rest`: `os.Exit(1)` ends the run. -/
def check (err : Option GoError) (rest : List Event) : List Event :=
  match err with
  | some e => [Event.stderr ("Encountered error(s): " ++ e.msg ++ "\n"), Event.osExit 1]
  | none => rest

/-- The function `main`. The receive `<-serverStarted` completes when a value is sent on the channel and
otherwise blocks for ever. -/
def main (env : Env) : List Event :=
  Event.checkflags env.checkflags.1 env.checkflags.2 ::
  check env.checkflags.2 (
  if env.checkflags.1 then [Event.osExit 0] else
  let absVideoFile := env.filepathAbs env.videoArg
  Event.filepathAbs env.videoArg absVideoFile.2 ::
  check absVideoFile.2 (
  let absSubtitlesFile := env.filepathAbs env.subsArg
  Event.filepathAbs env.subsArg absSubtitlesFile.2 ::
  check absSubtitlesFile.2 (
  let dmr := env.DMRextractor env.dmrURL
  Event.DMRextractor env.dmrURL dmr.2.2 ::
  check dmr.2.2 (
  let whereToListen := env.URLtoListenIPandPort env.dmrURL
  Event.URLtoListenIPandPort env.dmrURL whereToListen.2 ::
  check whereToListen.2 (
  let newsc := env.InitNewScreen
  Event.InitNewScreen newsc.2 ::
  check newsc.2 (
  let videoFileURLencoded := env.urlString (env.filepathBase absVideoFile.1)
  let subsFileURLencoded := env.urlString (env.filepathBase absSubtitlesFile.1)
  let tvdata : TVPayload :=
    { TransportURL := dmr.1
      ControlURL := dmr.2.1
      CallbackURL := "http://" ++ whereToListen.1 ++ "/callback"
      VideoURL := "http://" ++ whereToListen.1 ++ "/" ++ videoFileURLencoded
      SubtitlesURL := "http://" ++ whereToListen.1 ++ "/" ++ subsFileURLencoded }
  Event.NewServer whereToListen.1 ::
  Event.goServeFiles whereToListen.1 absVideoFile.1 absSubtitlesFile.1 ⟨tvdata, newsc.1⟩ ::
  if env.serverStartedSent then
    Event.recvServerStarted ::
    Event.SendtoTV tvdata "Play1" (env.SendtoTV tvdata "Play1") ::
    check (env.SendtoTV tvdata "Play1") [Event.InterInit tvdata, Event.mainReturns]
  else [Event.blockedOnServerStarted]))))))

/-! ## Notions used to state the properties -/

/-- The `(Server, Location)` pairs of the responses whose `Type` is the AVTransport
service type, in list order. -/
def avPairs (list : List Service) : List (String × String) :=
  (list.filter (fun srv => srv.Type_ = avTransport)).map (fun srv => (srv.Server, srv.Location))

/-- Order-preserving deduplication: an element of the list is kept when it is equal to none
of the elements before it; `earlier` holds the elements already passed. -/
def firstSeen (earlier : List (String × String)) : List (String × String) → List (String × String)
  | [] => []
  | p :: rest =>
    if p ∈ earlier then firstSeen (earlier ++ [p]) rest
    else p :: firstSeen (earlier ++ [p]) rest

/-- The map that holds the pairs of a list under the keys `start`, `start + 1`, ... -/
def numberedFrom (start : Int) : List (String × String) → Registry
  | [] => []
  | p :: rest => (start, [p.1, p.2]) :: numberedFrom (start + 1) rest

/-- The key set of the map is exactly `{1, ..., N}`. -/
def KeysExactly (devices : Registry) (N : Nat) : Prop :=
  (keysOf devices).Nodup ∧ ∀ k : Int, k ∈ keysOf devices ↔ 1 ≤ k ∧ k ≤ N

/-- The entries of the map are pairwise distinct `(Server, Location)` pairs. -/
def DistinctPairs (devices : Registry) : Prop :=
  (valuesOf devices).Nodup ∧ ∀ v ∈ valuesOf devices, ∃ s l : String, v = [s, l]

/-- Repeated discovery: one `loadSSDPservices` call per search result, each on the map the
previous call left. -/
def discoveryPasses : List (List Service × Option GoError) → Registry → Option Registry
  | [], devices => some devices
  | search :: rest, devices =>
    match loadSSDPservices search devices with
    | some (devices', _) => discoveryPasses rest devices'
    | none => none


/-- The error recorded in a call event; `none` for a call that returned a nil error and for
the events that are not calls returning an error. -/
def Event.returnedError : Event → Option GoError
  | Event.checkflags _ err => err
  | Event.filepathAbs _ err => err
  | Event.DMRextractor _ err => err
  | Event.URLtoListenIPandPort _ err => err
  | Event.InitNewScreen err => err
  | Event.SendtoTV _ _ err => err
  | _ => none

/-- The event is a SOAP command sent with `SendtoTV`. -/
def Event.isSendtoTV : Event → Bool
  | Event.SendtoTV _ _ _ => true
  | _ => false

/-- The event creates or starts the HTTP server. -/
def Event.isServer : Event → Bool
  | Event.NewServer _ => true
  | Event.goServeFiles _ _ _ _ => true
  | _ => false

/-- In the run `t`, every `SendtoTV` comes after a completed receive on `serverStarted`. -/
def ReadyBeforeSend (t : List Event) : Prop :=
  ∀ (pre post : List Event) (e : Event), t = pre ++ e :: post → e.isSendtoTV = true →
    Event.recvServerStarted ∈ pre

/-- In the run `t`, no `SendtoTV` comes before a completed receive on `serverStarted`. -/
def NoSendBeforeReady (t : List Event) : Prop :=
  ∀ (pre post : List Event), t = pre ++ Event.recvServerStarted :: post →
    ∀ x ∈ pre, x.isSendtoTV = false

/-- In the run `t`, a call that returned an error is followed by the message on standard
error and `os.Exit(1)`, and by nothing else. -/
def StopsAtError (t : List Event) : Prop :=
  ∀ (pre post : List Event) (e : Event) (err : GoError), t = pre ++ e :: post →
    e.returnedError = some err →
    post = [Event.stderr ("Encountered error(s): " ++ err.msg ++ "\n"), Event.osExit 1]

/-- The session payload the specification describes for the listen address `w` and the
absolute paths of the two files: transport and control URL from the descriptor, and three
URLs with origin `w`. -/
def sessionPayload (env : Env) (w absVideoFile absSubtitlesFile : String) : TVPayload :=
  { TransportURL := (env.DMRextractor env.dmrURL).1
    ControlURL := (env.DMRextractor env.dmrURL).2.1
    CallbackURL := "http://" ++ w ++ "/callback"
    VideoURL := "http://" ++ w ++ "/" ++ env.urlString (env.filepathBase absVideoFile)
    SubtitlesURL := "http://" ++ w ++ "/" ++ env.urlString (env.filepathBase absSubtitlesFile) }

/-- Every step of the set-up of `main` returns a nil error and `checkflags` does not ask to
exit. -/
def SetupSucceeds (env : Env) : Prop :=
  env.checkflags = (false, none) ∧ (env.filepathAbs env.videoArg).2 = none ∧
  (env.filepathAbs env.subsArg).2 = none ∧ (env.DMRextractor env.dmrURL).2.2 = none ∧
  (env.URLtoListenIPandPort env.dmrURL).2 = none ∧ env.InitNewScreen.2 = none

/-- An environment in which every call succeeds and the server signals that it has
started. -/
def exampleEnv : Env :=
  { videoArg := "film.mp4"
    subsArg := "film.srt"
    checkflags := (false, none)
    dmrURL := "http://192.0.2.10:49494/desc.xml"
    filepathAbs := fun p => ("/home/user/" ++ p, none)
    filepathBase := fun p => String.mk (p.toList.reverse.takeWhile (fun c => c ≠ '/')).reverse
    urlString := fun p => p
    DMRextractor := fun _ => ("http://192.0.2.10:49494/event", "http://192.0.2.10:49494/ctl", none)
    URLtoListenIPandPort := fun _ => ("192.0.2.5:9090", none)
    InitNewScreen := (⟨0⟩, none)
    serverStartedSent := true
    SendtoTV := fun _ _ => none }

/-- The environment `exampleEnv` with a descriptor that cannot be resolved. -/
def failingEnv : Env :=
  { exampleEnv with DMRextractor := fun _ => ("", "", some ⟨"unreachable"⟩) }

/-- The session payload of the run of `main` in `exampleEnv`. -/
def examplePayload : TVPayload :=
  { TransportURL := "http://192.0.2.10:49494/event"
    ControlURL := "http://192.0.2.10:49494/ctl"
    CallbackURL := "http://192.0.2.5:9090/callback"
    VideoURL := "http://192.0.2.5:9090/film.mp4"
    SubtitlesURL := "http://192.0.2.5:9090/film.srt" }

/-- The events of the run of `main` in `exampleEnv` before the SOAP command. -/
def exampleSetup : List Event :=
  [Event.checkflags false none,
    Event.filepathAbs "film.mp4" none,
    Event.filepathAbs "film.srt" none,
    Event.DMRextractor "http://192.0.2.10:49494/desc.xml" none,
    Event.URLtoListenIPandPort "http://192.0.2.10:49494/desc.xml" none,
    Event.InitNewScreen none,
    Event.NewServer "192.0.2.5:9090",
    Event.goServeFiles "192.0.2.5:9090" "/home/user/film.mp4" "/home/user/film.srt"
      ⟨examplePayload, ⟨0⟩⟩,
    Event.recvServerStarted]

/-! ## The Go map operations -/

theorem assign_of_not_mem (devices : Registry) (k : Int) (v : List String)
    (h : k ∉ keysOf devices) : assign devices k v = devices ++ [(k, v)] := by
  induction devices with
  | nil => rfl
  | cons e rest ih =>
    obtain ⟨k', v'⟩ := e
    simp only [keysOf, List.map_cons, List.mem_cons, not_or] at h
    have hne : ¬ k' = k := fun hk => h.1 hk.symm
    simp only [assign, hne, if_false, List.cons_append]
    rw [ih (by simpa [keysOf] using h.2)]


/-! ## Maps numbered from a start key -/

theorem keysOf_numberedFrom (D : List (String × String)) :
    ∀ (a k : Int), k ∈ keysOf (numberedFrom a D) ↔ a ≤ k ∧ k < a + D.length := by
  induction D with
  | nil =>
    intro a k
    simp only [numberedFrom, keysOf, List.map_nil, List.not_mem_nil, List.length_nil,
      Nat.cast_zero, false_iff]
    omega
  | cons p rest ih =>
    intro a k
    have h := ih (a + 1) k
    simp only [keysOf] at h
    simp only [numberedFrom, keysOf, List.map_cons, List.mem_cons, h, List.length_cons,
      Nat.cast_add, Nat.cast_one]
    omega

theorem valuesOf_numberedFrom (D : List (String × String)) :
    ∀ a : Int, valuesOf (numberedFrom a D) = D.map (fun p => [p.1, p.2]) := by
  induction D with
  | nil => intro a; rfl
  | cons p rest ih =>
    intro a
    have h := ih (a + 1)
    simp only [valuesOf] at h
    simp [numberedFrom, valuesOf, h]

theorem length_numberedFrom (D : List (String × String)) :
    ∀ a : Int, (numberedFrom a D).length = D.length := by
  induction D with
  | nil => intro a; rfl
  | cons p rest ih => intro a; simp [numberedFrom, ih]

theorem numberedFrom_append (D : List (String × String)) (p : String × String) :
    ∀ a : Int, numberedFrom a (D ++ [p]) = numberedFrom a D ++ [(a + D.length, [p.1, p.2])] := by
  induction D with
  | nil => intro a; simp [numberedFrom]
  | cons q rest ih =>
    intro a
    have e : a + 1 + (rest.length : Int) = a + (((rest.length + 1 : Nat)) : Int) := by omega
    show (a, [q.1, q.2]) :: numberedFrom (a + 1) (rest ++ [p]) = _
    rw [ih, e]
    rfl

theorem assign_numberedFrom (D : List (String × String)) (p : String × String) (a : Int) :
    assign (numberedFrom a D) (a + D.length) [p.1, p.2] = numberedFrom a (D ++ [p]) := by
  rw [numberedFrom_append, assign_of_not_mem]
  rw [keysOf_numberedFrom]
  omega

theorem scanDevices_numberedFrom (s l : String) (D : List (String × String)) :
    ∀ a : Int, scanDevices [s, l] (numberedFrom a D) = some (decide ((s, l) ∉ D)) := by
  induction D with
  | nil => intro a; simp [numberedFrom, scanDevices]
  | cons p rest ih =>
    intro a
    obtain ⟨s', l'⟩ := p
    simp only [numberedFrom, scanDevices, List.getElem?_cons_zero, List.getElem?_cons_succ, ih]
    by_cases hs : s' = s
    · by_cases hl : l' = l
      · simp [hs, hl]
      · have : ¬ l = l' := fun h => hl h.symm
        simp [hs, hl, this]
    · have : ¬ s = s' := fun h => hs h.symm
      simp [hs, this]

theorem index_numberedFrom (D : List (String × String)) :
    ∀ (a : Int) (k : Nat) (p : String × String), D[k]? = some p →
      index (numberedFrom a D) (a + k) = [p.1, p.2] := by
  induction D with
  | nil => intro a k p h; simp at h
  | cons q rest ih =>
    intro a k p h
    cases k with
    | zero =>
      simp only [List.getElem?_cons_zero, Option.some.injEq] at h
      simp [numberedFrom, index, h]
    | succ j =>
      simp only [List.getElem?_cons_succ] at h
      have hne : ¬ a = a + ((j + 1 : Nat) : Int) := by omega
      simp only [numberedFrom, index, hne, if_false]
      have := ih (a + 1) j p h
      have e : a + ((j + 1 : Nat) : Int) = a + 1 + (j : Int) := by omega
      rw [e]
      exact this

/-! ## Order-preserving deduplication -/

theorem mem_firstSeen (F : List (String × String)) :
    ∀ (earlier : List (String × String)) (p : String × String),
      p ∈ firstSeen earlier F ↔ p ∈ F ∧ p ∉ earlier := by
  induction F with
  | nil => intro earlier p; simp [firstSeen]
  | cons q rest ih =>
    intro earlier p
    by_cases hq : q ∈ earlier
    · simp only [firstSeen, hq, if_true, ih, List.mem_append, List.mem_cons, List.not_mem_nil,
        or_false]
      constructor
      · rintro ⟨h1, h2⟩
        exact ⟨Or.inr h1, fun h => h2 (Or.inl h)⟩
      · rintro ⟨h1, h2⟩
        rcases h1 with h1 | h1
        · exact absurd (h1 ▸ hq) h2
        · exact ⟨h1, fun h => h.elim h2 (fun e => h2 (e ▸ hq))⟩
    · simp only [firstSeen, hq, if_false, ih, List.mem_append, List.mem_cons, List.not_mem_nil,
        or_false]
      constructor
      · rintro (h | ⟨h1, h2⟩)
        · exact ⟨Or.inl h, h ▸ hq⟩
        · exact ⟨Or.inr h1, fun h => h2 (Or.inl h)⟩
      · rintro ⟨h1, h2⟩
        by_cases e : p = q
        · exact Or.inl e
        · rcases h1 with h1 | h1
          · exact absurd h1 e
          · exact Or.inr ⟨h1, fun h => h.elim h2 e⟩

theorem nodup_firstSeen (F : List (String × String)) :
    ∀ earlier : List (String × String), (firstSeen earlier F).Nodup := by
  induction F with
  | nil => intro earlier; simp [firstSeen]
  | cons q rest ih =>
    intro earlier
    by_cases hq : q ∈ earlier
    · simp only [firstSeen, hq, if_true]
      exact ih _
    · simp only [firstSeen, hq, if_false, List.nodup_cons]
      refine ⟨?_, ih _⟩
      rw [mem_firstSeen]
      simp

theorem length_firstSeen_nil (F : List (String × String)) :
    (firstSeen [] F).length = F.toFinset.card := by
  rw [← List.toFinset_card_of_nodup (nodup_firstSeen F [])]
  congr 1
  ext p
  simp [mem_firstSeen]

/-! ## The discovery loop on a numbered map -/

theorem searchLoop_numbered (list : List Service) :
    ∀ D earlier : List (String × String), (∀ p, p ∈ earlier ↔ p ∈ D) →
      searchLoop list (numberedFrom 1 D) D.length =
        some (numberedFrom 1 (D ++ firstSeen earlier (avPairs list)),
          ((D ++ firstSeen earlier (avPairs list)).length : Int)) := by
  induction list with
  | nil => intro D earlier _; simp [searchLoop, avPairs, firstSeen]
  | cons srv rest ih =>
    intro D earlier hmem
    by_cases ht : srv.Type_ = avTransport
    · have hav : avPairs (srv :: rest) = (srv.Server, srv.Location) :: avPairs rest := by
        simp [avPairs, ht]
      rw [hav]
      simp only [searchLoop, ht, if_true, scanDevices_numberedFrom]
      by_cases hin : (srv.Server, srv.Location) ∈ D
      · have hin' : (srv.Server, srv.Location) ∈ earlier := (hmem _).2 hin
        simp only [hin, not_true_eq_false, decide_False, firstSeen, hin', if_true]
        apply ih
        intro p
        simp only [List.mem_append, List.mem_singleton, hmem]
        constructor
        · rintro (h | h)
          · exact h
          · exact h ▸ hin
        · exact Or.inl
      · have hin' : (srv.Server, srv.Location) ∉ earlier := fun h => hin ((hmem _).1 h)
        simp only [hin, not_false_eq_true, decide_True, firstSeen, hin', if_false]
        have h1 := assign_numberedFrom D (srv.Server, srv.Location) 1
        have h2 : (1 : Int) + (D.length : Int) = (D.length : Int) + 1 := by omega
        rw [h2] at h1
        simp only at h1
        rw [h1]
        have h3 : ((D.length : Int) + 1) = ((D ++ [(srv.Server, srv.Location)]).length : Int) := by
          simp
        rw [h3, ih (D ++ [(srv.Server, srv.Location)]) (earlier ++ [(srv.Server, srv.Location)])]
        · simp
        · intro p
          simp only [List.mem_append, List.mem_singleton, hmem]
    · have hav : avPairs (srv :: rest) = avPairs rest := by
        simp [avPairs, ht]
      rw [hav]
      simp only [searchLoop, ht, if_false]
      exact ih D earlier hmem

theorem loadSSDPservices_empty (list : List Service) :
    loadSSDPservices (list, none) [] =
      some (numberedFrom 1 (firstSeen [] (avPairs list)),
        if 0 < (firstSeen [] (avPairs list)).length then none else some errNoRenderers) := by
  have h := searchLoop_numbered list [] [] (by simp)
  simp only [numberedFrom, List.length_nil, Nat.cast_zero, List.nil_append] at h
  simp only [loadSSDPservices, h]
  by_cases hp : 0 < (firstSeen [] (avPairs list)).length
  · simp [hp]
  · simp [hp]


theorem nodup_keysOf_numberedFrom (D : List (String × String)) :
    ∀ a : Int, (keysOf (numberedFrom a D)).Nodup := by
  induction D with
  | nil => intro a; simp [numberedFrom, keysOf]
  | cons p rest ih =>
    intro a
    have h := ih (a + 1)
    have hm := keysOf_numberedFrom rest (a + 1) a
    simp only [keysOf] at h hm
    simp only [numberedFrom, keysOf, List.map_cons, List.nodup_cons, hm]
    exact ⟨by omega, h⟩

theorem keysExactly_numberedFrom (D : List (String × String)) :
    KeysExactly (numberedFrom 1 D) D.length := by
  refine ⟨nodup_keysOf_numberedFrom D 1, fun k => ?_⟩
  rw [keysOf_numberedFrom]
  omega

theorem nodup_valuesOf_numberedFrom (D : List (String × String)) (a : Int) (h : D.Nodup) :
    (valuesOf (numberedFrom a D)).Nodup := by
  rw [valuesOf_numberedFrom]
  refine h.map ?_
  intro p q hpq
  simp only [List.cons.injEq, and_true] at hpq
  exact Prod.ext hpq.1 hpq.2

theorem mem_avPairs (list : List Service) (s l : String) :
    (s, l) ∈ avPairs list ↔
      ∃ srv ∈ list, srv.Type_ = avTransport ∧ srv.Server = s ∧ srv.Location = l := by
  simp only [avPairs, List.mem_map, List.mem_filter, decide_eq_true_eq, Prod.mk.injEq]
  constructor
  · rintro ⟨srv, ⟨h1, h2⟩, h3, h4⟩
    exact ⟨srv, h1, h2, h3, h4⟩
  · rintro ⟨srv, h1, h2, h3, h4⟩
    exact ⟨srv, ⟨h1, h2⟩, h3, h4⟩

/-! ## Discovery from the empty map -/

/-- C1: starting from the empty map, for every list of responses returned by the search,
`loadSSDPservices` leaves a map that holds the slice `[Server, Location]` of a pair exactly
when a response of type AVTransport carries that pair, holds only such two-element slices,
holds none of them twice, and has the key set `{1, ..., N}` and `N` entries, where `N` is
the number of distinct pairs among the AVTransport responses. -/
theorem loadSSDPservices_registry_exact (list : List Service) :
    ∃ reg err, loadSSDPservices (list, none) [] = some (reg, err) ∧
      (∀ s l : String, [s, l] ∈ valuesOf reg ↔
        ∃ srv ∈ list, srv.Type_ = avTransport ∧ srv.Server = s ∧ srv.Location = l) ∧
      (∀ v ∈ valuesOf reg, ∃ s l : String, v = [s, l]) ∧
      (valuesOf reg).Nodup ∧
      KeysExactly reg (avPairs list).toFinset.card ∧
      len reg = (avPairs list).toFinset.card := by
  refine ⟨_, _, loadSSDPservices_empty list, ?_, ?_, ?_, ?_, ?_⟩
  · intro s l
    rw [valuesOf_numberedFrom, ← mem_avPairs]
    simp only [List.mem_map, List.cons.injEq, and_true]
    constructor
    · rintro ⟨p, hp, h1, h2⟩
      have : p = (s, l) := Prod.ext h1 h2
      rw [mem_firstSeen] at hp
      exact this ▸ hp.1
    · intro h
      exact ⟨(s, l), (mem_firstSeen _ _ _).2 ⟨h, by simp⟩, rfl, rfl⟩
  · intro v hv
    rw [valuesOf_numberedFrom] at hv
    simp only [List.mem_map] at hv
    obtain ⟨p, _, hp⟩ := hv
    exact ⟨p.1, p.2, hp.symm⟩
  · exact nodup_valuesOf_numberedFrom _ 1 (nodup_firstSeen _ _)
  · rw [← length_firstSeen_nil]
    exact keysExactly_numberedFrom _
  · rw [← length_firstSeen_nil, len, length_numberedFrom]

/-- C4: starting from the empty map, `loadSSDPservices` numbers the devices in first-seen
order: the map has as many entries as the order-preserving deduplication of the pairs of
the AVTransport responses, the entry under key `k + 1` is the element at position `k` of
that deduplication, and reading the keys `1, ..., N` in order gives the deduplicated list. -/
theorem loadSSDPservices_first_seen_order (list : List Service) :
    ∃ reg err, loadSSDPservices (list, none) [] = some (reg, err) ∧
      len reg = (firstSeen [] (avPairs list)).length ∧
      (∀ (k : Nat) (p : String × String), (firstSeen [] (avPairs list))[k]? = some p →
        index reg ((k : Int) + 1) = [p.1, p.2]) ∧
      (List.range (firstSeen [] (avPairs list)).length).map
          (fun k : Nat => index reg ((k : Int) + 1)) =
        (firstSeen [] (avPairs list)).map (fun p => [p.1, p.2]) := by
  have hidx : ∀ (k : Nat) (p : String × String), (firstSeen [] (avPairs list))[k]? = some p →
      index (numberedFrom 1 (firstSeen [] (avPairs list))) ((k : Int) + 1) = [p.1, p.2] := by
    intro k p h
    have := index_numberedFrom _ 1 k p h
    rwa [add_comm] at this
  refine ⟨_, _, loadSSDPservices_empty list, ?_, hidx, ?_⟩
  · rw [len, length_numberedFrom]
  · apply List.ext_getElem
    · simp
    · intro n h1 h2
      simp only [List.length_map, List.length_range] at h1
      simp only [List.getElem_map, List.getElem_range]
      exact hidx n _ (List.getElem?_eq_getElem h1)

/-- C5: starting from the empty map, when the search returned a list and no error,
`loadSSDPservices` returns the error "loadSSDPservices: No available Media Renderers"
exactly when no response of the list has the AVTransport type; the map is then still
empty; otherwise the returned error is nil and the map is not empty. When the search
returned an error, that error is returned and the map is the one the call started from. -/
theorem loadSSDPservices_error_iff (list : List Service) (devices : Registry)
    (searchErr : GoError) :
    (∃ reg err, loadSSDPservices (list, none) [] = some (reg, err) ∧
      (err = some errNoRenderers ↔ ∀ srv ∈ list, srv.Type_ ≠ avTransport) ∧
      (err = some errNoRenderers → reg = []) ∧
      (err ≠ some errNoRenderers → err = none ∧ reg ≠ [])) ∧
    loadSSDPservices (list, some searchErr) devices = some (devices, some searchErr) := by
  refine ⟨⟨_, _, loadSSDPservices_empty list, ?_⟩, rfl⟩
  have hnone : (∀ srv ∈ list, srv.Type_ ≠ avTransport) ↔ avPairs list = [] := by
    simp [avPairs, List.filter_eq_nil_iff]
  rw [hnone]
  cases hF : avPairs list with
  | nil => simp [firstSeen, numberedFrom]
  | cons p rest => simp [firstSeen, numberedFrom]


/-! ## Discovery on an arbitrary map -/

theorem scanDevices_pairs (s l : String) (devices : Registry)
    (hp : ∀ v ∈ valuesOf devices, ∃ s' l' : String, v = [s', l']) :
    scanDevices [s, l] devices = some (decide ([s, l] ∉ valuesOf devices)) := by
  induction devices with
  | nil => simp [scanDevices, valuesOf]
  | cons e rest ih =>
    obtain ⟨k, z⟩ := e
    have hrest : ∀ v ∈ valuesOf rest, ∃ s' l' : String, v = [s', l'] := by
      intro v hv
      exact hp v (by simp only [valuesOf, List.map_cons, List.mem_cons]; exact Or.inr hv)
    obtain ⟨s', l', hz⟩ := hp z (by simp [valuesOf])
    subst hz
    have ih' := ih hrest
    simp only [valuesOf] at ih'
    simp only [scanDevices, List.getElem?_cons_zero, List.getElem?_cons_succ, ih', valuesOf,
      List.map_cons, List.mem_cons, List.cons.injEq, and_true]
    by_cases hs : s' = s
    · by_cases hl : l' = l
      · simp [hs, hl]
      · have : ¬ l = l' := fun h => hl h.symm
        simp [hs, hl, this]
    · have : ¬ s = s' := fun h => hs h.symm
      simp [hs, this]

theorem mem_keysOf_assign (devices : Registry) (k : Int) (v : List String) (k' : Int) :
    k' ∈ keysOf (assign devices k v) ↔ k' = k ∨ k' ∈ keysOf devices := by
  induction devices with
  | nil => simp [assign, keysOf]
  | cons e rest ih =>
    obtain ⟨k₀, v₀⟩ := e
    simp only [keysOf] at ih
    by_cases h : k₀ = k
    · simp only [assign, h, if_true, keysOf, List.map_cons, List.mem_cons]
      tauto
    · simp only [assign, h, if_false, keysOf, List.map_cons, List.mem_cons, ih]
      tauto

theorem nodup_keysOf_assign (devices : Registry) (k : Int) (v : List String)
    (h : (keysOf devices).Nodup) : (keysOf (assign devices k v)).Nodup := by
  induction devices with
  | nil => simp [assign, keysOf]
  | cons e rest ih =>
    obtain ⟨k₀, v₀⟩ := e
    simp only [keysOf, List.map_cons, List.nodup_cons] at h
    by_cases hk : k₀ = k
    · simp only [assign, hk, if_true, keysOf, List.map_cons, List.nodup_cons]
      exact ⟨hk ▸ h.1, h.2⟩
    · have hm := mem_keysOf_assign rest k v k₀
      have ih' := ih h.2
      simp only [keysOf] at hm ih'
      simp only [assign, hk, if_false, keysOf, List.map_cons, List.nodup_cons, hm]
      exact ⟨fun hc => hc.elim (fun f => f.elim) h.1, ih'⟩

theorem mem_valuesOf_assign (devices : Registry) (k : Int) (v v' : List String)
    (h : v' ∈ valuesOf (assign devices k v)) : v' = v ∨ v' ∈ valuesOf devices := by
  induction devices with
  | nil => simpa [assign, valuesOf] using h
  | cons e rest ih =>
    obtain ⟨k₀, v₀⟩ := e
    by_cases hk : k₀ = k
    · simp only [assign, hk, if_true, valuesOf, List.map_cons, List.mem_cons] at h ⊢
      tauto
    · simp only [assign, hk, if_false, valuesOf, List.map_cons, List.mem_cons] at h ih ⊢
      tauto

theorem nodup_valuesOf_assign (devices : Registry) (k : Int) (v : List String)
    (h : (valuesOf devices).Nodup) (hv : v ∉ valuesOf devices) :
    (valuesOf (assign devices k v)).Nodup := by
  induction devices with
  | nil => simp [assign, valuesOf]
  | cons e rest ih =>
    obtain ⟨k₀, v₀⟩ := e
    simp only [valuesOf, List.map_cons, List.nodup_cons, List.mem_cons, not_or] at h hv
    by_cases hk : k₀ = k
    · simp only [assign, hk, if_true, valuesOf, List.map_cons, List.nodup_cons]
      exact ⟨hv.2, h.2⟩
    · have ih' := ih h.2 hv.2
      simp only [assign, hk, if_false, valuesOf, List.map_cons, List.nodup_cons]
      refine ⟨fun hc => ?_, ih'⟩
      rcases mem_valuesOf_assign rest k v v₀ hc with h1 | h1
      · exact hv.1 h1.symm
      · exact h.1 h1

theorem len_of_keysExactly (devices : Registry) (N : Nat) (h : KeysExactly devices N) :
    len devices = N := by
  have h1 : (keysOf devices).toFinset = Finset.Icc (1 : Int) N := by
    ext k
    simp only [List.mem_toFinset, Finset.mem_Icc]
    exact h.2 k
  have h2 := List.toFinset_card_of_nodup h.1
  rw [h1, Int.card_Icc] at h2
  have h3 : (keysOf devices).length = devices.length := by simp [keysOf]
  simp only [len]
  omega

theorem searchLoop_invariant (list : List Service) :
    ∀ (devices : Registry) (M : Nat) (counter : Int),
      KeysExactly devices M → DistinctPairs devices → 0 ≤ counter → counter ≤ M →
      ∃ (devices' : Registry) (counter' : Int) (M' : Nat),
        searchLoop list devices counter = some (devices', counter') ∧
        KeysExactly devices' M' ∧ DistinctPairs devices' ∧ M ≤ M' ∧
        counter ≤ counter' ∧ counter' ≤ M' := by
  induction list with
  | nil =>
    intro devices M counter hk hd h0 hM
    exact ⟨devices, counter, M, rfl, hk, hd, le_refl _, le_refl _, hM⟩
  | cons srv rest ih =>
    intro devices M counter hk hd h0 hM
    by_cases ht : srv.Type_ = avTransport
    · simp only [searchLoop, ht, if_true, scanDevices_pairs _ _ devices hd.2]
      by_cases hin : [srv.Server, srv.Location] ∈ valuesOf devices
      · simp only [hin, not_true_eq_false, decide_False]
        exact ih devices M counter hk hd h0 hM
      · simp only [hin, not_false_eq_true, decide_True]
        have hd' : DistinctPairs (assign devices (counter + 1) [srv.Server, srv.Location]) := by
          refine ⟨nodup_valuesOf_assign _ _ _ hd.1 hin, fun v hv => ?_⟩
          rcases mem_valuesOf_assign _ _ _ _ hv with h1 | h1
          · exact ⟨_, _, h1⟩
          · exact hd.2 v h1
        by_cases hc : counter + 1 ≤ M
        · have hk' : KeysExactly (assign devices (counter + 1) [srv.Server, srv.Location]) M := by
            refine ⟨nodup_keysOf_assign _ _ _ hk.1, fun k => ?_⟩
            rw [mem_keysOf_assign, hk.2]
            omega
          obtain ⟨d', c', M', h1, h2, h3, h4, h5, h6⟩ :=
            ih _ M (counter + 1) hk' hd' (by omega) hc
          exact ⟨d', c', M', h1, h2, h3, h4, by omega, h6⟩
        · have hk' : KeysExactly (assign devices (counter + 1) [srv.Server, srv.Location])
              (M + 1) := by
            refine ⟨nodup_keysOf_assign _ _ _ hk.1, fun k => ?_⟩
            rw [mem_keysOf_assign, hk.2]
            push_cast
            omega
          obtain ⟨d', c', M', h1, h2, h3, h4, h5, h6⟩ :=
            ih _ (M + 1) (counter + 1) hk' hd' (by omega) (by push_cast; omega)
          exact ⟨d', c', M', h1, h2, h3, by omega, by omega, h6⟩
    · simp only [searchLoop, ht, if_false]
      exact ih devices M counter hk hd h0 hM

theorem loadSSDPservices_invariant (search : List Service × Option GoError) (devices : Registry)
    (N : Nat) (hk : KeysExactly devices N) (hd : DistinctPairs devices) :
    ∃ (devices' : Registry) (err : Option GoError) (N' : Nat),
      loadSSDPservices search devices = some (devices', err) ∧ N ≤ N' ∧
      KeysExactly devices' N' ∧ DistinctPairs devices' := by
  obtain ⟨list, serr⟩ := search
  cases serr with
  | some e => exact ⟨devices, some e, N, rfl, le_refl _, hk, hd⟩
  | none =>
    obtain ⟨d', c', M', h1, h2, h3, h4, _, _⟩ :=
      searchLoop_invariant list devices N 0 hk hd (le_refl _) (by omega)
    by_cases hc : c' > 0
    · exact ⟨d', none, M', by simp [loadSSDPservices, h1, hc], h4, h2, h3⟩
    · exact ⟨d', some errNoRenderers, M', by simp [loadSSDPservices, h1, hc], h4, h2, h3⟩

theorem discoveryPasses_invariant (passes : List (List Service × Option GoError)) :
    ∀ (devices : Registry) (N : Nat), KeysExactly devices N → DistinctPairs devices →
      ∃ (devices' : Registry) (N' : Nat), discoveryPasses passes devices = some devices' ∧
        N ≤ N' ∧ KeysExactly devices' N' ∧ DistinctPairs devices' := by
  induction passes with
  | nil => intro devices N hk hd; exact ⟨devices, N, rfl, le_refl _, hk, hd⟩
  | cons search rest ih =>
    intro devices N hk hd
    obtain ⟨d₁, err, N₁, h1, h2, h3, h4⟩ := loadSSDPservices_invariant search devices N hk hd
    obtain ⟨d₂, N₂, h5, h6, h7, h8⟩ := ih d₁ N₁ h3 h4
    exact ⟨d₂, N₂, by simp [discoveryPasses, h1, h5], le_trans h2 h6, h7, h8⟩

theorem keysExactly_nil : KeysExactly [] 0 := by
  refine ⟨by simp [keysOf], fun k => ?_⟩
  simp only [keysOf, List.map_nil, List.not_mem_nil, Nat.cast_zero, false_iff]
  omega

theorem distinctPairs_nil : DistinctPairs [] := by
  simp [DistinctPairs, valuesOf]

/-! ## Device selection -/

theorem mem_sortInts (keys : List Int) (i : Int) : i ∈ sortInts keys ↔ i ∈ keys :=
  (List.perm_insertionSort _ keys).mem_iff

theorem pickLoop_of_mem (devices : Registry) (i : Int) (ks : List Int) (h : i ∈ ks) :
    pickLoop devices i ks =
      match (index devices i)[1]? with
      | some location => some (location, none)
      | none => none := by
  induction ks with
  | nil => simp at h
  | cons k rest ih =>
    by_cases hk : i = k
    · subst hk
      simp [pickLoop]
    · simp only [List.mem_cons, hk, false_or] at h
      simp only [pickLoop, hk, if_false]
      exact ih h

theorem index_mem_valuesOf (devices : Registry) (i : Int) (h : i ∈ keysOf devices) :
    index devices i ∈ valuesOf devices := by
  induction devices with
  | nil => simp [keysOf] at h
  | cons e rest ih =>
    obtain ⟨k, v⟩ := e
    by_cases hk : k = i
    · simp [index, hk, valuesOf]
    · have h' : i ∈ keysOf rest := by
        simp only [keysOf, List.map_cons, List.mem_cons] at h
        rcases h with h | h
        · exact absurd h.symm hk
        · exact h
      have := ih h'
      simp only [valuesOf] at this
      simp only [index, hk, if_false, valuesOf, List.map_cons, List.mem_cons]
      exact Or.inr this

theorem devicePicker_of_mem (devices : Registry) (N : Nat) (i : Int)
    (hkeys : KeysExactly devices N) (hlo : 1 ≤ i) (hhi : i ≤ N) :
    devicePicker devices i =
      match (index devices i)[1]? with
      | some location => some (devices, location, none)
      | none => none := by
  have hlen := len_of_keysExactly devices N hkeys
  have hguard : ¬ (i > len devices ∨ len devices = 0 ∨ i ≤ 0) := by
    rw [hlen]
    omega
  have hmem : i ∈ sortInts (keysOf devices) := (mem_sortInts _ _).2 ((hkeys.2 i).2 ⟨hlo, hhi⟩)
  simp only [devicePicker, hguard, if_false, pickLoop_of_mem devices i _ hmem]
  cases (index devices i)[1]? <;> rfl


theorem devicePicker_ne_terriblyWrong (devices : Registry) (N : Nat) (i : Int)
    (hkeys : KeysExactly devices N) (d : Registry) (s : String) :
    devicePicker devices i ≠ some (d, s, some errTerriblyWrong) := by
  by_cases hguard : i > len devices ∨ len devices = 0 ∨ i ≤ 0
  · simp only [devicePicker, hguard, if_true]
    intro h
    simp only [Option.some.injEq, Prod.mk.injEq] at h
    exact absurd h.2.2 (by decide)
  · have hlen := len_of_keysExactly devices N hkeys
    rw [devicePicker_of_mem devices N i hkeys (by omega) (by omega)]
    cases (index devices i)[1]? <;> simp

theorem searchLoop_all_listed (list : List Service) (devices : Registry) (counter : Int)
    (hp : ∀ v ∈ valuesOf devices, ∃ s l : String, v = [s, l])
    (hall : ∀ srv ∈ list, srv.Type_ = avTransport → [srv.Server, srv.Location] ∈ valuesOf devices) :
    searchLoop list devices counter = some (devices, counter) := by
  induction list with
  | nil => rfl
  | cons srv rest ih =>
    have hrest := ih (fun x hx => hall x (List.mem_cons_of_mem _ hx))
    by_cases ht : srv.Type_ = avTransport
    · have hin := hall srv (List.mem_cons_self _ _) ht
      simp [searchLoop, ht, scanDevices_pairs _ _ devices hp, hin, hrest]
    · simp [searchLoop, ht, hrest]

/-- A second discovery pass that receives the responses of the first one adds nothing and
returns the no-renderer error, whatever the responses are. -/
theorem loadSSDPservices_same_responses_again (list : List Service) :
    ∃ reg err, loadSSDPservices (list, none) [] = some (reg, err) ∧
      loadSSDPservices (list, none) reg = some (reg, some errNoRenderers) := by
  refine ⟨_, _, loadSSDPservices_empty list, ?_⟩
  have h := searchLoop_all_listed list (numberedFrom 1 (firstSeen [] (avPairs list))) 0
    (by
      intro v hv
      rw [valuesOf_numberedFrom] at hv
      simp only [List.mem_map] at hv
      obtain ⟨p, _, hp⟩ := hv
      exact ⟨p.1, p.2, hp.symm⟩)
    (by
      intro srv hsrv ht
      rw [valuesOf_numberedFrom]
      simp only [List.mem_map]
      refine ⟨(srv.Server, srv.Location), ?_, rfl⟩
      rw [mem_firstSeen]
      exact ⟨(mem_avPairs _ _ _).2 ⟨srv, hsrv, ht, rfl, rfl⟩, by simp⟩)
  simp [loadSSDPservices, h]

/-- C2: on a map whose key set is exactly `{1, ..., N}` and for `1 ≤ i ≤ N`, `devicePicker(i)`
returns the string stored at position 1 of the slice under key `i`, with a nil error and the
map unchanged, and never the error "devicePicker: Something went terribly wrong"; on every
map left by `loadSSDPservices` run from the empty map, every key from 1 to `len(devices)`
holds a slice `[Server, Location]` and `devicePicker` returns its `Location`. -/
theorem devicePicker_in_range (devices : Registry) (N : Nat) (i : Int)
    (hkeys : KeysExactly devices N) (hlo : 1 ≤ i) (hhi : i ≤ N) :
    (∀ location : String, (index devices i)[1]? = some location →
      devicePicker devices i = some (devices, location, none)) ∧
    (∀ (d : Registry) (s : String),
      devicePicker devices i ≠ some (d, s, some errTerriblyWrong)) ∧
    (∀ (list : List Service) (reg : Registry) (err : Option GoError) (j : Int),
      loadSSDPservices (list, none) [] = some (reg, err) → 1 ≤ j → j ≤ len reg →
      ∃ server location : String, index reg j = [server, location] ∧
        devicePicker reg j = some (reg, location, none)) := by
  refine ⟨?_, devicePicker_ne_terriblyWrong devices N i hkeys, ?_⟩
  · intro location hloc
    rw [devicePicker_of_mem devices N i hkeys hlo hhi, hloc]
  · intro list reg err j hload hj1 hj2
    rw [loadSSDPservices_empty] at hload
    simp only [Option.some.injEq, Prod.mk.injEq] at hload
    obtain ⟨hreg, _⟩ := hload
    subst hreg
    have hk := keysExactly_numberedFrom (firstSeen [] (avPairs list))
    rw [len_of_keysExactly _ _ hk] at hj2
    have hv := index_mem_valuesOf _ j ((hk.2 j).2 ⟨hj1, hj2⟩)
    rw [valuesOf_numberedFrom] at hv
    simp only [List.mem_map] at hv
    obtain ⟨p, _, hp⟩ := hv
    refine ⟨p.1, p.2, hp.symm, ?_⟩
    rw [devicePicker_of_mem _ _ j hk hj1 hj2, ← hp]
    rfl

theorem devicePicker_in_range_witness :
    KeysExactly [(1, ["S", "L"]), (2, ["S2", "L2"])] 2 ∧
    devicePicker [(1, ["S", "L"]), (2, ["S2", "L2"])] 2 =
      some ([(1, ["S", "L"]), (2, ["S2", "L2"])], "L2", none) := by
  have hk : KeysExactly [(1, ["S", "L"]), (2, ["S2", "L2"])] 2 := by
    refine ⟨by decide, fun k => ?_⟩
    simp only [keysOf, List.map_cons, List.map_nil, List.mem_cons, List.not_mem_nil, or_false,
      Nat.cast_ofNat]
    omega
  exact ⟨hk, (devicePicker_in_range _ 2 2 hk (by decide) (by decide)).1 "L2" rfl⟩

/-- C3: on every map, with `N = len(devices)` entries under any keys, and for every `i`
with `i ≤ 0` or `i > N`, and for every `i` when `N = 0`, `devicePicker(i)` returns the empty
string and the error "devicePicker: Requested device not available", and leaves the map as
it was. -/
theorem devicePicker_out_of_range (devices : Registry) (i : Int)
    (h : i ≤ 0 ∨ i > len devices ∨ len devices = 0) :
    devicePicker devices i = some (devices, "", some errNotAvailable) := by
  have hguard : i > len devices ∨ len devices = 0 ∨ i ≤ 0 := by
    rcases h with h | h | h
    · exact Or.inr (Or.inr h)
    · exact Or.inl h
    · exact Or.inr (Or.inl h)
  simp [devicePicker, hguard]

theorem devicePicker_out_of_range_witness :
    devicePicker [(5, ["S", "L"])] 2 = some ([(5, ["S", "L"])], "", some errNotAvailable) ∧
    devicePicker [] 1 = some ([], "", some errNotAvailable) :=
  ⟨devicePicker_out_of_range [(5, ["S", "L"])] 2 (Or.inr (Or.inl (by decide))),
    devicePicker_out_of_range [] 1 (Or.inr (Or.inr (by decide)))⟩

/-- C9: a first discovery pass from the empty map that receives one AVTransport response
stores it under key 1 and returns nil; a second pass on that map receiving the same response
returns the error "loadSSDPservices: No available Media Renderers"; a second pass receiving
a response of another renderer stores it under key 1 in place of the first. -/
theorem loadSSDPservices_second_pass :
    loadSSDPservices ([⟨avTransport, "S", "L"⟩], none) [] = some ([(1, ["S", "L"])], none) ∧
    loadSSDPservices ([⟨avTransport, "S", "L"⟩], none) [(1, ["S", "L"])] =
      some ([(1, ["S", "L"])], some errNoRenderers) ∧
    loadSSDPservices ([⟨avTransport, "S2", "L2"⟩], none) [(1, ["S", "L"])] =
      some ([(1, ["S2", "L2"])], none) := by
  refine ⟨?_, ?_, ?_⟩ <;> decide

/-- C10: when the key set of the map is exactly `{1, ..., N}` and its entries are pairwise
distinct `(Server, Location)` pairs, then after `loadSSDPservices`, for every response list,
the key set is exactly `{1, ..., N'}` for some `N' ≥ N` and the entries are again pairwise
distinct pairs; the same holds for the map after any number of discovery passes from the
empty map; and on such a map `devicePicker` never returns the error
"devicePicker: Something went terribly wrong". -/
theorem discovery_preserves_wellformed (devices : Registry) (N : Nat) (list : List Service)
    (passes : List (List Service × Option GoError)) (i : Int)
    (hk : KeysExactly devices N) (hd : DistinctPairs devices) :
    (∃ (devices' : Registry) (err : Option GoError) (N' : Nat),
      loadSSDPservices (list, none) devices = some (devices', err) ∧ N ≤ N' ∧
      KeysExactly devices' N' ∧ DistinctPairs devices') ∧
    (∃ (reg : Registry) (M : Nat), discoveryPasses passes [] = some reg ∧
      KeysExactly reg M ∧ DistinctPairs reg ∧
      ∀ (j : Int) (d : Registry) (s : String),
        devicePicker reg j ≠ some (d, s, some errTerriblyWrong)) ∧
    (∀ (d : Registry) (s : String),
      devicePicker devices i ≠ some (d, s, some errTerriblyWrong)) := by
  refine ⟨loadSSDPservices_invariant (list, none) devices N hk hd, ?_,
    devicePicker_ne_terriblyWrong devices N i hk⟩
  obtain ⟨reg, M, h1, _, h2, h3⟩ :=
    discoveryPasses_invariant passes [] 0 keysExactly_nil distinctPairs_nil
  exact ⟨reg, M, h1, h2, h3, fun j => devicePicker_ne_terriblyWrong reg M j h2⟩

theorem discovery_preserves_wellformed_witness :
    KeysExactly [(1, ["S", "L"]), (2, ["S2", "L2"])] 2 ∧
    DistinctPairs [(1, ["S", "L"]), (2, ["S2", "L2"])] ∧
    ∃ (devices' : Registry) (err : Option GoError) (N' : Nat),
      loadSSDPservices ([⟨avTransport, "S3", "L3"⟩, ⟨avTransport, "S", "L"⟩], none)
        [(1, ["S", "L"]), (2, ["S2", "L2"])] = some (devices', err) ∧ 2 ≤ N' ∧
      KeysExactly devices' N' ∧ DistinctPairs devices' := by
  have hk : KeysExactly [(1, ["S", "L"]), (2, ["S2", "L2"])] 2 := by
    refine ⟨by decide, fun k => ?_⟩
    simp only [keysOf, List.map_cons, List.map_nil, List.mem_cons, List.not_mem_nil, or_false,
      Nat.cast_ofNat]
    omega
  have hd : DistinctPairs [(1, ["S", "L"]), (2, ["S2", "L2"])] := by
    refine ⟨by decide, fun v hv => ?_⟩
    simp only [valuesOf, List.map_cons, List.map_nil, List.mem_cons, List.not_mem_nil,
      or_false] at hv
    rcases hv with hv | hv
    · exact ⟨"S", "L", hv⟩
    · exact ⟨"S2", "L2", hv⟩
  exact ⟨hk, hd, (discovery_preserves_wellformed _ 2
    [⟨avTransport, "S3", "L3"⟩, ⟨avTransport, "S", "L"⟩]
    [([⟨avTransport, "S", "L"⟩], none)] 1 hk hd).1⟩


/-! ## The run of `main` -/


/-! ## The run of `main` -/

theorem check_some (e : GoError) (rest : List Event) :
    check (some e) rest =
      [Event.stderr ("Encountered error(s): " ++ e.msg ++ "\n"), Event.osExit 1] := rfl

theorem check_none (rest : List Event) : check none rest = rest := rfl

theorem readyBeforeSend_of_no_send (t : List Event) (h : ∀ e ∈ t, e.isSendtoTV = false) :
    ReadyBeforeSend t := by
  intro pre post e ht hs
  have : e ∈ t := by rw [ht]; simp
  rw [h e this] at hs
  exact absurd hs (by decide)

theorem readyBeforeSend_cons (x : Event) (t : List Event) (hx : x.isSendtoTV = false)
    (ht : ReadyBeforeSend t) : ReadyBeforeSend (x :: t) := by
  intro pre post e h hs
  cases pre with
  | nil =>
    simp only [List.nil_append, List.cons.injEq] at h
    rw [← h.1, hx] at hs
    exact absurd hs (by decide)
  | cons y pre' =>
    simp only [List.cons_append, List.cons.injEq] at h
    exact List.mem_cons_of_mem _ (ht pre' post e h.2 hs)

theorem readyBeforeSend_recv (t : List Event) :
    ReadyBeforeSend (Event.recvServerStarted :: t) := by
  intro pre post e h hs
  cases pre with
  | nil =>
    simp only [List.nil_append, List.cons.injEq] at h
    rw [← h.1] at hs
    exact absurd hs (by decide)
  | cons y pre' =>
    simp only [List.cons_append, List.cons.injEq] at h
    rw [← h.1]
    exact List.mem_cons_self _ _

theorem readyBeforeSend_check (err : Option GoError) (rest : List Event)
    (h : ReadyBeforeSend rest) : ReadyBeforeSend (check err rest) := by
  cases err with
  | none => exact h
  | some e =>
    apply readyBeforeSend_of_no_send
    intro x hx
    simp only [check, List.mem_cons, List.not_mem_nil, or_false] at hx
    rcases hx with hx | hx <;> subst hx <;> rfl

theorem readyBeforeSend_main (env : Env) : ReadyBeforeSend (main env) := by
  unfold main
  dsimp only
  refine readyBeforeSend_cons _ _ (by rfl) ?_
  apply readyBeforeSend_check
  split
  · exact readyBeforeSend_of_no_send _ (by simp [Event.isSendtoTV])
  refine readyBeforeSend_cons _ _ (by rfl) ?_
  apply readyBeforeSend_check
  refine readyBeforeSend_cons _ _ (by rfl) ?_
  apply readyBeforeSend_check
  refine readyBeforeSend_cons _ _ (by rfl) ?_
  apply readyBeforeSend_check
  refine readyBeforeSend_cons _ _ (by rfl) ?_
  apply readyBeforeSend_check
  refine readyBeforeSend_cons _ _ (by rfl) ?_
  apply readyBeforeSend_check
  refine readyBeforeSend_cons _ _ (by rfl) ?_
  refine readyBeforeSend_cons _ _ (by rfl) ?_
  split
  · exact readyBeforeSend_recv _
  · exact readyBeforeSend_of_no_send _ (by simp [Event.isSendtoTV])

theorem stopsAtError_of_no_error (t : List Event) (h : ∀ x ∈ t, x.returnedError = none) :
    StopsAtError t := by
  intro pre post e err ht he
  have : e ∈ t := by rw [ht]; simp
  rw [h e this] at he
  exact absurd he (by simp)

theorem stopsAtError_cons (x : Event) (t : List Event) (hx : x.returnedError = none)
    (ht : StopsAtError t) : StopsAtError (x :: t) := by
  intro pre post e err h he
  cases pre with
  | nil =>
    simp only [List.nil_append, List.cons.injEq] at h
    rw [← h.1, hx] at he
    exact absurd he (by simp)
  | cons y pre' =>
    simp only [List.cons_append, List.cons.injEq] at h
    exact ht pre' post e err h.2 he

theorem stopsAtError_step (x : Event) (err : Option GoError) (rest : List Event)
    (hx : x.returnedError = err) (hrest : StopsAtError rest) :
    StopsAtError (x :: check err rest) := by
  cases err with
  | none => exact stopsAtError_cons x rest hx hrest
  | some e₀ =>
    intro pre post e err' h he
    cases pre with
    | nil =>
      simp only [List.nil_append, List.cons.injEq] at h
      rw [← h.1, hx] at he
      simp only [Option.some.injEq] at he
      rw [← h.2, ← he]
      rfl
    | cons y pre' =>
      simp only [List.cons_append, List.cons.injEq] at h
      have hmem : e ∈ check (some e₀) rest := by rw [h.2]; simp
      simp only [check, List.mem_cons, List.not_mem_nil, or_false] at hmem
      rcases hmem with hm | hm <;> subst hm <;> simp [Event.returnedError] at he

theorem stopsAtError_main (env : Env) : StopsAtError (main env) := by
  unfold main
  dsimp only
  apply stopsAtError_step _ _ _ rfl
  split
  · exact stopsAtError_of_no_error _ (by simp [Event.returnedError])
  apply stopsAtError_step _ _ _ rfl
  apply stopsAtError_step _ _ _ rfl
  apply stopsAtError_step _ _ _ rfl
  apply stopsAtError_step _ _ _ rfl
  apply stopsAtError_step _ _ _ rfl
  refine stopsAtError_cons _ _ (by rfl) ?_
  refine stopsAtError_cons _ _ (by rfl) ?_
  split
  · refine stopsAtError_cons _ _ (by rfl) ?_
    apply stopsAtError_step _ _ _ rfl
    exact stopsAtError_of_no_error _ (by simp [Event.returnedError])
  · exact stopsAtError_of_no_error _ (by simp [Event.returnedError])


theorem main_of_setupSucceeds (env : Env) (h : SetupSucceeds env) :
    main env =
      [Event.checkflags false none,
        Event.filepathAbs env.videoArg none,
        Event.filepathAbs env.subsArg none,
        Event.DMRextractor env.dmrURL none,
        Event.URLtoListenIPandPort env.dmrURL none,
        Event.InitNewScreen none,
        Event.NewServer (env.URLtoListenIPandPort env.dmrURL).1,
        Event.goServeFiles (env.URLtoListenIPandPort env.dmrURL).1
          (env.filepathAbs env.videoArg).1 (env.filepathAbs env.subsArg).1
          ⟨sessionPayload env (env.URLtoListenIPandPort env.dmrURL).1
            (env.filepathAbs env.videoArg).1 (env.filepathAbs env.subsArg).1,
            env.InitNewScreen.1⟩] ++
      if env.serverStartedSent then
        Event.recvServerStarted ::
        Event.SendtoTV (sessionPayload env (env.URLtoListenIPandPort env.dmrURL).1
            (env.filepathAbs env.videoArg).1 (env.filepathAbs env.subsArg).1) "Play1"
          (env.SendtoTV (sessionPayload env (env.URLtoListenIPandPort env.dmrURL).1
            (env.filepathAbs env.videoArg).1 (env.filepathAbs env.subsArg).1) "Play1") ::
        check (env.SendtoTV (sessionPayload env (env.URLtoListenIPandPort env.dmrURL).1
            (env.filepathAbs env.videoArg).1 (env.filepathAbs env.subsArg).1) "Play1")
          [Event.InterInit (sessionPayload env (env.URLtoListenIPandPort env.dmrURL).1
            (env.filepathAbs env.videoArg).1 (env.filepathAbs env.subsArg).1),
            Event.mainReturns]
      else [Event.blockedOnServerStarted] := by
  obtain ⟨h1, h2, h3, h4, h5, h6⟩ := h
  simp only [main, h1, h2, h3, h4, h5, h6, check, sessionPayload]
  simp

theorem main_of_not_setupSucceeds (env : Env) (h : ¬ SetupSucceeds env) (e : Event)
    (he : e ∈ main env) :
    e.isServer = false ∧ e.isSendtoTV = false ∧ ∀ tvdata, e ≠ Event.InterInit tvdata := by
  have hcf : env.checkflags = (env.checkflags.1, env.checkflags.2) := rfl
  cases h1 : env.checkflags.2 with
  | some x =>
    simp only [main, h1, check, List.mem_cons, List.not_mem_nil, or_false] at he
    rcases he with he | he | he <;> subst he <;> simp [Event.isServer, Event.isSendtoTV]
  | none =>
  cases h1' : env.checkflags.1 with
  | true =>
    simp only [main, h1, h1', check, if_true, List.mem_cons, List.not_mem_nil, or_false] at he
    rcases he with he | he <;> subst he <;> simp [Event.isServer, Event.isSendtoTV]
  | false =>
  cases h2 : (env.filepathAbs env.videoArg).2 with
  | some x =>
    simp [main, h1, h1', h2, check] at he
    rcases he with he | he | he | he <;> subst he <;> simp [Event.isServer, Event.isSendtoTV]
  | none =>
  cases h3 : (env.filepathAbs env.subsArg).2 with
  | some x =>
    simp [main, h1, h1', h2, h3, check] at he
    rcases he with he | he | he | he | he <;> subst he <;>
      simp [Event.isServer, Event.isSendtoTV]
  | none =>
  cases h4 : (env.DMRextractor env.dmrURL).2.2 with
  | some x =>
    simp [main, h1, h1', h2, h3, h4, check] at he
    rcases he with he | he | he | he | he | he <;> subst he <;>
      simp [Event.isServer, Event.isSendtoTV]
  | none =>
  cases h5 : (env.URLtoListenIPandPort env.dmrURL).2 with
  | some x =>
    simp [main, h1, h1', h2, h3, h4, h5, check] at he
    rcases he with he | he | he | he | he | he | he <;> subst he <;>
      simp [Event.isServer, Event.isSendtoTV]
  | none =>
  cases h6 : env.InitNewScreen.2 with
  | some x =>
    simp [main, h1, h1', h2, h3, h4, h5, h6, check] at he
    rcases he with he | he | he | he | he | he | he | he <;> subst he <;>
      simp [Event.isServer, Event.isSendtoTV]
  | none =>
    exact absurd ⟨by rw [hcf, h1, h1'], h2, h3, h4, h5, h6⟩ h


theorem noSendBeforeReady_of_no_recv (t : List Event)
    (h : ∀ e ∈ t, e ≠ Event.recvServerStarted) : NoSendBeforeReady t := by
  intro pre post ht
  have : Event.recvServerStarted ∈ t := by rw [ht]; simp
  exact absurd rfl (h _ this)

theorem noSendBeforeReady_cons (x : Event) (t : List Event) (hx : x.isSendtoTV = false)
    (ht : NoSendBeforeReady t) : NoSendBeforeReady (x :: t) := by
  intro pre post h y hy
  cases pre with
  | nil => simp at hy
  | cons z pre' =>
    simp only [List.cons_append, List.cons.injEq] at h
    simp only [List.mem_cons] at hy
    rcases hy with hy | hy
    · rw [hy, ← h.1]
      exact hx
    · exact ht pre' post h.2 y hy

theorem noSendBeforeReady_recv (t : List Event) (h : ∀ e ∈ t, e ≠ Event.recvServerStarted) :
    NoSendBeforeReady (Event.recvServerStarted :: t) := by
  intro pre post ht y hy
  cases pre with
  | nil => simp at hy
  | cons z pre' =>
    simp only [List.cons_append, List.cons.injEq] at ht
    have : Event.recvServerStarted ∈ t := by rw [ht.2]; simp
    exact absurd rfl (h _ this)

theorem noSendBeforeReady_check (err : Option GoError) (rest : List Event)
    (h : NoSendBeforeReady rest) : NoSendBeforeReady (check err rest) := by
  cases err with
  | none => exact h
  | some e =>
    apply noSendBeforeReady_of_no_recv
    intro x hx
    simp only [check, List.mem_cons, List.not_mem_nil, or_false] at hx
    rcases hx with hx | hx <;> subst hx <;> simp

theorem noSendBeforeReady_main (env : Env) : NoSendBeforeReady (main env) := by
  unfold main
  dsimp only
  refine noSendBeforeReady_cons _ _ (by rfl) ?_
  apply noSendBeforeReady_check
  split
  · exact noSendBeforeReady_of_no_recv _ (by simp)
  refine noSendBeforeReady_cons _ _ (by rfl) ?_
  apply noSendBeforeReady_check
  refine noSendBeforeReady_cons _ _ (by rfl) ?_
  apply noSendBeforeReady_check
  refine noSendBeforeReady_cons _ _ (by rfl) ?_
  apply noSendBeforeReady_check
  refine noSendBeforeReady_cons _ _ (by rfl) ?_
  apply noSendBeforeReady_check
  refine noSendBeforeReady_cons _ _ (by rfl) ?_
  apply noSendBeforeReady_check
  refine noSendBeforeReady_cons _ _ (by rfl) ?_
  refine noSendBeforeReady_cons _ _ (by rfl) ?_
  split
  · apply noSendBeforeReady_recv
    intro e he
    simp only [List.mem_cons] at he
    rcases he with he | he
    · subst he; simp
    · cases hr : env.SendtoTV _ "Play1" with
      | none =>
        rw [hr] at he
        simp only [check, List.mem_cons, List.not_mem_nil, or_false] at he
        rcases he with he | he <;> subst he <;> simp
      | some x =>
        rw [hr] at he
        simp only [check, List.mem_cons, List.not_mem_nil, or_false] at he
        rcases he with he | he <;> subst he <;> simp
  · exact noSendBeforeReady_of_no_recv _ (by simp)

theorem sendtoTV_mem_main (env : Env) (tvdata : TVPayload) (action : String)
    (err : Option GoError) (h : Event.SendtoTV tvdata action err ∈ main env) :
    SetupSucceeds env ∧ env.serverStartedSent = true ∧ action = "Play1" ∧
    tvdata = sessionPayload env (env.URLtoListenIPandPort env.dmrURL).1
      (env.filepathAbs env.videoArg).1 (env.filepathAbs env.subsArg).1 := by
  by_cases hs : SetupSucceeds env
  · refine ⟨hs, ?_⟩
    rw [main_of_setupSucceeds env hs] at h
    cases hsent : env.serverStartedSent with
    | false => simp [hsent] at h
    | true =>
      simp only [hsent, if_true, List.mem_append, List.mem_cons, List.not_mem_nil, or_false,
        false_or, Event.SendtoTV.injEq] at h
      simp only [reduceCtorEq, false_or] at h
      rcases h with h | h
      · exact ⟨rfl, h.2.1, h.1⟩
      · exfalso
        revert h
        cases env.SendtoTV _ "Play1" <;> simp [check]
  · have := (main_of_not_setupSucceeds env hs _ h).2.1
    simp [Event.isSendtoTV] at this


/-- C6: in every run of `main`, a `SendtoTV` call is the call `SendtoTV("Play1")`, it comes
after `main` has completed the receive on `serverStarted` (so a value was sent on the
channel), and no `SendtoTV` call comes before a completed receive on `serverStarted`. -/
theorem main_sendtoTV_after_ready (env : Env) (pre post : List Event) (tvdata : TVPayload)
    (action : String) (err : Option GoError)
    (h : main env = pre ++ Event.SendtoTV tvdata action err :: post) :
    Event.recvServerStarted ∈ pre ∧ env.serverStartedSent = true ∧ action = "Play1" ∧
    (∀ pre' post' : List Event, main env = pre' ++ Event.recvServerStarted :: post' →
      ∀ x ∈ pre', x.isSendtoTV = false) := by
  have hmem : Event.SendtoTV tvdata action err ∈ main env := by rw [h]; simp
  obtain ⟨_, h2, h3, _⟩ := sendtoTV_mem_main env tvdata action err hmem
  exact ⟨readyBeforeSend_main env pre post _ h rfl, h2, h3, noSendBeforeReady_main env⟩

theorem main_sendtoTV_after_ready_witness :
    main exampleEnv = exampleSetup ++ Event.SendtoTV examplePayload "Play1" none ::
      [Event.InterInit examplePayload, Event.mainReturns] ∧
    Event.recvServerStarted ∈ exampleSetup :=
  ⟨by decide,
    (main_sendtoTV_after_ready exampleEnv exampleSetup
      [Event.InterInit examplePayload, Event.mainReturns] examplePayload "Play1" none
      (by decide)).1⟩

/-- C7: when the set-up of `main` succeeds, with `w` the listen address returned by
`URLtoListenIPandPort` and `video`, `subs` the absolute paths returned by `filepath.Abs`, the
run of `main` creates the HTTP server with `w` and starts it with a payload whose
`CallbackURL` is `"http://" + w + "/callback"`, whose `VideoURL` is
`"http://" + w + "/" + escape(base(video))` and whose `SubtitlesURL` is
`"http://" + w + "/" + escape(base(subs))`; every server creation in the run uses `w`, and
every server start, `SendtoTV` and `InterInit` in the run carries that payload. -/
theorem main_payload_origin (env : Env) (w video subs : String)
    (hflags : env.checkflags = (false, none))
    (hvideo : env.filepathAbs env.videoArg = (video, none))
    (hsubs : env.filepathAbs env.subsArg = (subs, none))
    (hdmr : (env.DMRextractor env.dmrURL).2.2 = none)
    (hw : env.URLtoListenIPandPort env.dmrURL = (w, none))
    (hscreen : env.InitNewScreen.2 = none) :
    ∃ (tvdata : TVPayload) (before after : List Event),
      main env = before ++ Event.NewServer w ::
        Event.goServeFiles w video subs ⟨tvdata, env.InitNewScreen.1⟩ :: after ∧
      tvdata.CallbackURL = "http://" ++ w ++ "/callback" ∧
      tvdata.VideoURL = "http://" ++ w ++ "/" ++ env.urlString (env.filepathBase video) ∧
      tvdata.SubtitlesURL = "http://" ++ w ++ "/" ++ env.urlString (env.filepathBase subs) ∧
      (∀ a : String, Event.NewServer a ∈ main env → a = w) ∧
      (∀ (a v s : String) (payload : HTTPPayload),
        Event.goServeFiles a v s payload ∈ main env → a = w ∧ payload.Soapcalls = tvdata) ∧
      (∀ (tv : TVPayload) (action : String) (err : Option GoError),
        Event.SendtoTV tv action err ∈ main env → tv = tvdata) ∧
      (∀ tv : TVPayload, Event.InterInit tv ∈ main env → tv = tvdata) := by
  have hs : SetupSucceeds env := ⟨hflags, by rw [hvideo], by rw [hsubs], hdmr, by rw [hw], hscreen⟩
  have hrun := main_of_setupSucceeds env hs
  simp only [hvideo, hsubs, hw] at hrun
  refine ⟨sessionPayload env w video subs,
    [Event.checkflags false none, Event.filepathAbs env.videoArg none,
      Event.filepathAbs env.subsArg none, Event.DMRextractor env.dmrURL none,
      Event.URLtoListenIPandPort env.dmrURL none, Event.InitNewScreen none],
    _, hrun, rfl, rfl, rfl, ?_, ?_, ?_, ?_⟩
  · intro a ha
    rw [hrun] at ha
    cases hsent : env.serverStartedSent <;>
      cases hr : env.SendtoTV (sessionPayload env w video subs) "Play1" <;>
      simp [hsent, hr, check] at ha <;> exact ha
  · intro a v s payload ha
    rw [hrun] at ha
    cases hsent : env.serverStartedSent <;>
      cases hr : env.SendtoTV (sessionPayload env w video subs) "Play1" <;>
      simp [hsent, hr, check] at ha <;>
      exact ⟨ha.1, by rw [ha.2.2.2]⟩
  · intro tv action err ha
    have := (sendtoTV_mem_main env tv action err ha).2.2.2
    simpa only [hvideo, hsubs, hw] using this
  · intro tv ha
    rw [hrun] at ha
    cases hsent : env.serverStartedSent <;>
      cases hr : env.SendtoTV (sessionPayload env w video subs) "Play1" <;>
      simp [hsent, hr, check] at ha
    exact ha

theorem main_payload_origin_witness :
    ∃ (tvdata : TVPayload) (before after : List Event),
      main exampleEnv = before ++ Event.NewServer "192.0.2.5:9090" ::
        Event.goServeFiles "192.0.2.5:9090" "/home/user/film.mp4" "/home/user/film.srt"
          ⟨tvdata, ⟨0⟩⟩ :: after ∧
      tvdata.CallbackURL = "http://192.0.2.5:9090/callback" ∧
      tvdata.VideoURL = "http://192.0.2.5:9090/film.mp4" ∧
      tvdata.SubtitlesURL = "http://192.0.2.5:9090/film.srt" := by
  obtain ⟨tvdata, before, after, h1, h2, h3, h4, _⟩ :=
    main_payload_origin exampleEnv "192.0.2.5:9090" "/home/user/film.mp4" "/home/user/film.srt"
      rfl (by decide) (by decide) rfl rfl rfl
  refine ⟨tvdata, before, after, h1, ?_, ?_, ?_⟩
  · rw [h2]; decide
  · rw [h3]; decide
  · rw [h4]; decide

/-- C8: in every run of `main`, a call that returned an error (`checkflags`, `filepath.Abs`
of either file, `DMRextractor`, `URLtoListenIPandPort`, `InitNewScreen`, `SendtoTV`) is
followed by the error message on standard error and `os.Exit(1)` and by nothing else, and no
earlier call returned an error; when `DMRextractor` or `URLtoListenIPandPort` returns an
error for `dmrURL`, the run creates and starts no HTTP server and sends no SOAP command;
`check(err)` exits with status 1 exactly when `err` is not nil, and otherwise continues. -/
theorem main_exits_at_first_error (env : Env) (pre post : List Event) (e : Event)
    (err : GoError) (hrun : main env = pre ++ e :: post) (herr : e.returnedError = some err) :
    post = [Event.stderr ("Encountered error(s): " ++ err.msg ++ "\n"), Event.osExit 1] ∧
    (∀ x ∈ pre, x.returnedError = none) ∧
    ((env.DMRextractor env.dmrURL).2.2 ≠ none ∨
        (env.URLtoListenIPandPort env.dmrURL).2 ≠ none →
      ∀ x ∈ main env, x.isServer = false ∧ x.isSendtoTV = false) ∧
    (∀ (r : Option GoError) (rest : List Event),
      (Event.osExit 1 ∈ check r [] ↔ r ≠ none) ∧
      (∀ x : GoError, r = some x → check r rest =
        [Event.stderr ("Encountered error(s): " ++ x.msg ++ "\n"), Event.osExit 1]) ∧
      (r = none → check r rest = rest)) := by
  refine ⟨stopsAtError_main env pre post e err hrun herr, ?_, ?_, ?_⟩
  · intro x hx
    cases hxe : x.returnedError with
    | none => rfl
    | some err' =>
      exfalso
      obtain ⟨p₁, p₂, hp⟩ := List.append_of_mem hx
      have hrun' : main env = p₁ ++ x :: (p₂ ++ e :: post) := by
        rw [hrun, hp]; simp
      have h2 := stopsAtError_main env p₁ _ x err' hrun' hxe
      have hmem : e ∈ p₂ ++ e :: post := by simp
      rw [h2] at hmem
      simp only [List.mem_cons, List.not_mem_nil, or_false] at hmem
      rcases hmem with hm | hm <;> subst hm <;> simp [Event.returnedError] at herr
  · intro hfail x hx
    have hns : ¬ SetupSucceeds env := by
      rintro ⟨_, _, _, h4, h5, _⟩
      rcases hfail with hf | hf
      · exact hf h4
      · exact hf h5
    have := main_of_not_setupSucceeds env hns x hx
    exact ⟨this.1, this.2.1⟩
  · intro r rest
    refine ⟨?_, ?_, ?_⟩
    · cases r <;> simp [check]
    · intro x hx; subst hx; rfl
    · intro hr; subst hr; rfl

theorem main_exits_at_first_error_witness :
    main failingEnv =
      [Event.checkflags false none, Event.filepathAbs "film.mp4" none,
        Event.filepathAbs "film.srt" none] ++
      Event.DMRextractor "http://192.0.2.10:49494/desc.xml" (some ⟨"unreachable"⟩) ::
      [Event.stderr "Encountered error(s): unreachable\n", Event.osExit 1] ∧
    [Event.stderr "Encountered error(s): unreachable\n", Event.osExit 1] =
      [Event.stderr ("Encountered error(s): " ++ (GoError.mk "unreachable").msg ++ "\n"),
        Event.osExit 1] :=
  ⟨by decide,
    (main_exits_at_first_error failingEnv
      [Event.checkflags false none, Event.filepathAbs "film.mp4" none,
        Event.filepathAbs "film.srt" none]
      [Event.stderr "Encountered error(s): unreachable\n", Event.osExit 1]
      (Event.DMRextractor "http://192.0.2.10:49494/desc.xml" (some ⟨"unreachable"⟩))
      ⟨"unreachable"⟩ (by decide) rfl).1⟩

end Go2tv
